import Mathlib

/-!
Verification of the wallpaper acquisition and freshness-caching engine of
`src/lib/optimizedWallpaperService.ts`.

The service is shallowly embedded as pure Lean functions plus explicit state
passing.  Conventions of the embedding:

* Calendar dates (the `YYYY-MM-DD` strings produced by `getLocalDateString`)
  are modelled as natural numbers (day indexes).  For well-formed fixed-width
  `YYYY-MM-DD` strings, lexicographic string comparison coincides with
  chronological comparison, so the service's string comparisons on dates
  (`dateMatch[1] < cutoffDate`, `wallpaperKeys.sort().reverse()[0]`) are
  modelled as comparisons on the day index.
* IndexedDB keys are modelled by the inductive `Key`: the service's own keys
  `wallpaper-optimized:<resolution>-<date>` and
  `wallpaper-optimized:<resolution>-<date>-metadata` become
  `Key.wallpaper resolution date isMeta`; every foreign key in the store
  (not starting with `wallpaper-optimized:`) becomes `Key.other name`.
  The substring test `key.includes(resolution)` used by the service to scope a
  scan to one category is modelled as equality of the resolution component
  (for the concrete categories `1080p`, `720p`, `4k`, `mobile` no category
  name occurs as a substring of another category's key).
* Binary payloads (`Blob`s) are modelled by their size, the only attribute the
  service inspects.  Blob URLs minted by `memoryManager.createBlobUrl` are
  modelled as `Url.blobUrl b`.
* Fallible code (network fetch, `downloadAndCache` throwing) is modelled with
  `Except`; the network response supplied by the environment is a
  `FetchResult` argument.  The two fire-and-forget `indexedDBCache.set` calls
  of `downloadAndCache` may each fail (a failure is caught, logged, and
  otherwise ignored); their outcomes are a `WriteOutcome` argument supplied
  by the environment.
* Every cache write carries the service's 48-hour TTL.  Entries record the
  absolute day from which that TTL can lapse (written during day `T`, the
  48 hours are up at the same wall-clock moment during day `T + 2`); the
  system model's `expire` transition may remove an entry on any step once
  the current day has reached its recorded expiry day, covering every
  wall-clock time at which the TTL can actually strike.
* Fire-and-forget invocations (`updateWallpaperInBackground`, the foreground
  network request) are recorded in a returned `List SvcAction` so that theorems
  can state that a path performs no download / schedules no background work.
-/

/-- Does the character list `l` begin with `p`?  Used to model
`String.prototype.startsWith`. -/
def beginsWithChars : List Char → List Char → Bool
  | _, [] => true
  | [], _ :: _ => false
  | c :: cs, p :: ps => c = p && beginsWithChars cs ps

/-- Model of `s.startsWith(p)` on JavaScript strings. -/
def beginsWith (s p : String) : Bool := beginsWithChars s.data p.data

/-- Does `sub` occur as a contiguous substring of `l`? -/
def hasSubstringChars (l sub : List Char) : Bool :=
  match l with
  | [] => beginsWithChars [] sub
  | _ :: rest => beginsWithChars l sub || hasSubstringChars rest sub

/-- Model of `s.includes(sub)` on JavaScript strings. -/
def hasSubstring (s sub : String) : Bool := hasSubstringChars s.data sub.data

/-- A binary payload; the service only ever inspects `blob.size`. -/
structure Blob where
  size : Nat
deriving DecidableEq, Repr

/-- An IndexedDB key.  `Key.wallpaper res d m` stands for the string
`wallpaper-optimized:<res>-<d>` when `m = false` and for
`wallpaper-optimized:<res>-<d>-metadata` when `m = true`; `Key.other n`
stands for any key of another subsystem (not starting with the
`wallpaper-optimized:` namespace). -/
inductive Key where
  | wallpaper (resolution : String) (date : Nat) (isMeta : Bool)
  | other (name : String)
deriving DecidableEq, Repr

/-- A value stored in IndexedDB: either an image blob or the small JSON
metadata blob `{ originalUrl }` that the service writes next to it. -/
inductive Stored where
  | blob (b : Blob)
  | meta (originalUrl : String)
deriving DecidableEq, Repr

/-- A stored value together with its absolute expiry day.  The service
writes every entry with a 48-hour TTL (`48 * 60 * 60 * 1000` ms); an entry
written during day `T` reaches its TTL at the same wall-clock moment during
day `T + 2`, so its recorded expiry day is `T + 2`: from that day on the
store may stop returning it (the `expire` transition of the system model). -/
structure StoredEntry where
  value : Stored
  expiresAt : Nat
deriving DecidableEq, Repr

/-- The IndexedDB store, as an association list. -/
abbrev Store := List (Key × StoredEntry)

/-- Model of `indexedDBCache.get`. -/
def storeGet : Store → Key → Option StoredEntry
  | [], _ => none
  | (k', v) :: rest, k => if k' = k then some v else storeGet rest k

/-- Model of `indexedDBCache.delete`. -/
def storeDelete : Store → Key → Store
  | [], _ => []
  | (k', v) :: rest, k =>
    if k' = k then storeDelete rest k else (k', v) :: storeDelete rest k

/-- Model of `indexedDBCache.set` (an overwriting write carrying the entry's
TTL, recorded as the absolute day from which the entry may expire). -/
def storeSet (s : Store) (k : Key) (v : Stored) (expiresAt : Nat) : Store :=
  (k, ⟨v, expiresAt⟩) :: storeDelete s k

/-- Lookup in an association list keyed by strings (used for the
`localStorage` success markers and the in-memory retry maps). -/
def lookupStr : List (String × Nat) → String → Option Nat
  | [], _ => none
  | (k', v) :: rest, k => if k' = k then some v else lookupStr rest k

/-- Remove a binding from a string-keyed association list. -/
def removeStr : List (String × Nat) → String → List (String × Nat)
  | [], _ => []
  | (k', v) :: rest, k =>
    if k' = k then removeStr rest k else (k', v) :: removeStr rest k

/-- Overwrite a binding in a string-keyed association list. -/
def setStr (l : List (String × Nat)) (k : String) (v : Nat) :
    List (String × Nat) :=
  (k, v) :: removeStr l k

/-- A URL as seen by the caller of the service. -/
inductive Url where
  | blobUrl (b : Blob)
  | fallbackImage
  | customUrl (s : String)
deriving DecidableEq, Repr

/-- The outcome of the single network request issued by `downloadAndCache`:
either the request threw (timeout, abort, non-success status), or it produced
a response with a content type, a body blob, and an optional
`X-Wallpaper-Source` header value. -/
inductive FetchResult where
  | err
  | ok (contentType : String) (blob : Blob) (sourceHeader : Option String)
deriving DecidableEq, Repr

/-- The outcomes of the two fire-and-forget `indexedDBCache.set` calls of
`downloadAndCache` (the image payload and its metadata record).  Each write
is started without being awaited and may fail; a failure is caught and
logged (StorageWriteFailure is non-fatal) while the caller proceeds — in
particular `markUpdateSuccess` runs — regardless of the write outcomes. -/
structure WriteOutcome where
  blobOk : Bool
  metaOk : Bool
deriving DecidableEq, Repr

/-- The 48-hour TTL (`48 * 60 * 60 * 1000` ms) that the service passes to
every cache write, in whole days. -/
def WALLPAPER_TTL_DAYS : Nat := 2

/-- The record returned by `downloadAndCache`. -/
structure DownloadResult where
  blobUrl : Url
  originalUrl : String
  isFallback : Bool
deriving DecidableEq, Repr

/-- The record returned by `getSmartCache`. -/
structure SmartCacheResult where
  url : Url
  isToday : Bool
  originalUrl : Option String
deriving DecidableEq, Repr

/-- The record returned by `getWallpaper` / `_getWallpaperInternal`. -/
structure WallpaperResult where
  url : Url
  isFromCache : Bool
  isToday : Bool
  needsUpdate : Bool
  originalUrl : Option String
deriving DecidableEq, Repr

/-- Side effects recorded by the embedding: a fire-and-forget call to
`updateWallpaperInBackground`, or an actual network download being issued
(one invocation of `downloadAndCache`). -/
inductive SvcAction where
  | backgroundUpdate (resolution : String)
  | download (resolution : String)
deriving DecidableEq, Repr

/-- The mutable state of the service that the modelled operations touch:
the IndexedDB store, the `wallpaper-update-success-<res>` markers in
`localStorage`, and the in-memory retry maps.  A pending retry timer is
modelled by a binding `resolution ↦ capturedCount` where `capturedCount` is
the retry count captured by the `setTimeout` closure when it was armed. -/
structure ServiceState where
  store : Store
  successMarkers : List (String × Nat)
  retryTimers : List (String × Nat)
  retryCounts : List (String × Nat)
deriving DecidableEq, Repr

/-- `RETRY_DELAYS_MS = [30*1000, 60*1000, 120*1000, 240*1000]`. -/
def RETRY_DELAYS_MS : List Nat := [30 * 1000, 60 * 1000, 120 * 1000, 240 * 1000]

/-- `MAX_RETRY_COUNT = 8`. -/
def MAX_RETRY_COUNT : Nat := 8

/-- `getTodayCacheKey`: the key `wallpaper-optimized:<res>-<today>`. -/
def getTodayCacheKey (resolution : String) (today : Nat) : Key :=
  Key.wallpaper resolution today false

/-- `getYesterdayCacheKey`: the key for the previous calendar day. -/
def getYesterdayCacheKey (resolution : String) (today : Nat) : Key :=
  Key.wallpaper resolution (today - 1) false

/-- `shouldForceRefresh`: true unless the success marker for the category
holds today's date. -/
def shouldForceRefresh (st : ServiceState) (resolution : String) (today : Nat) :
    Bool :=
  match lookupStr st.successMarkers resolution with
  | none => true
  | some d => d != today

/-- `markUpdateSuccess`: record today's date in the success marker, clear any
pending retry timer and the in-memory retry count for the category. -/
def markUpdateSuccess (st : ServiceState) (resolution : String) (today : Nat) :
    ServiceState :=
  { st with
    successMarkers := setStr st.successMarkers resolution today
    retryTimers := removeStr st.retryTimers resolution
    retryCounts := removeStr st.retryCounts resolution }

/-- `scheduleRetry`: a no-op when a timer is already pending or the retry
count has reached `MAX_RETRY_COUNT`; otherwise arms a timer whose delay is
`RETRY_DELAYS_MS[retryCount % RETRY_DELAYS_MS.length]`.  The second component
is the delay of the newly armed timer (`none` when nothing was scheduled). -/
def scheduleRetry (st : ServiceState) (resolution : String) :
    ServiceState × Option Nat :=
  match lookupStr st.retryTimers resolution with
  | some _ => (st, none)
  | none =>
    let retryCount := (lookupStr st.retryCounts resolution).getD 0
    if MAX_RETRY_COUNT ≤ retryCount then (st, none)
    else
      let delayMs := RETRY_DELAYS_MS.getD (retryCount % RETRY_DELAYS_MS.length) 0
      ({ st with retryTimers := setStr st.retryTimers resolution retryCount },
       some delayMs)

/-- The bookkeeping performed by the retry timer callback when it fires:
the pending-timer entry is removed and the retry count is set to the captured
count plus one (the callback then re-invokes `updateWallpaperInBackground`,
modelled separately). -/
def retryFireCounts (st : ServiceState) (resolution : String) : ServiceState :=
  match lookupStr st.retryTimers resolution with
  | some captured =>
    { st with
      retryTimers := removeStr st.retryTimers resolution
      retryCounts := setStr st.retryCounts resolution (captured + 1) }
  | none => st

/-- `getOriginalUrl`: read the metadata blob stored next to a cache entry and
extract its `originalUrl` field. -/
def getOriginalUrl (store : Store) (resolution : String) (date : Nat) :
    Option String :=
  match storeGet store (Key.wallpaper resolution date true) with
  | some ⟨Stored.meta u, _⟩ => some u
  | _ => none

/-- Read an image blob from the store (the service casts the stored value to
a `Blob`; a metadata value under an image key yields nothing usable). -/
def lookupBlob (store : Store) (k : Key) : Option Blob :=
  match storeGet store k with
  | some ⟨Stored.blob b, _⟩ => some b
  | _ => none

/-- The dates of all cache keys for the given category: the scan
`allKeys.filter(k => k.startsWith('wallpaper-optimized:') &&
k.includes(resolution) && !k.includes('-metadata'))` of `getSmartCache`. -/
def wallpaperDatesFor (store : Store) (resolution : String) : List Nat :=
  (store.map Prod.fst).filterMap (fun k =>
    match k with
    | Key.wallpaper r d m => if r = resolution ∧ m = false then some d else none
    | Key.other _ => none)

/-- Ascending insertion used to model `Array.prototype.sort()` on the
date-scoped keys (lexicographic order on the key strings, which share the
prefix `wallpaper-optimized:<res>-`, is the chronological order on dates). -/
def insertAsc (x : Nat) : List Nat → List Nat
  | [] => [x]
  | y :: ys => if x ≤ y then x :: y :: ys else y :: insertAsc x ys

/-- Insertion sort, ascending; `sort()` in the source. -/
def sortAsc : List Nat → List Nat
  | [] => []
  | x :: xs => insertAsc x (sortAsc xs)

/-- `getSmartCache`: resolve the best cached entry across freshness tiers
(today, then yesterday, then the most recent of all stored dates for the
category, via `wallpaperKeys.sort().reverse()[0]`). -/
def getSmartCache (store : Store) (resolution : String) (today : Nat) :
    Option SmartCacheResult :=
  match lookupBlob store (getTodayCacheKey resolution today) with
  | some b => some ⟨Url.blobUrl b, true, getOriginalUrl store resolution today⟩
  | none =>
    match lookupBlob store (getYesterdayCacheKey resolution today) with
    | some b =>
      some ⟨Url.blobUrl b, false, getOriginalUrl store resolution (today - 1)⟩
    | none =>
      match (sortAsc (wallpaperDatesFor store resolution)).reverse.head? with
      | some d =>
        match lookupBlob store (Key.wallpaper resolution d false) with
        | some b =>
          some ⟨Url.blobUrl b, false, getOriginalUrl store resolution d⟩
        | none => none
      | none => none

/-- The `resolutionMap` of `getWallpaperUrl` (defaulting to `1920x1080`). -/
def resolutionMapped (resolution : String) : String :=
  if resolution = "4k" then "uhd"
  else if resolution = "1080p" then "1920x1080"
  else if resolution = "720p" then "1366x768"
  else if resolution = "mobile" then "mobile"
  else "1920x1080"

/-- `getWallpaperUrl`: when a Supabase base URL is configured, the edge
function URL for the category and date; otherwise the local fallback image
(`none` models returning `this.fallbackImage`). -/
def getWallpaperUrl (supabaseUrl : Option String) (resolution : String)
    (today : Nat) : Option String :=
  match supabaseUrl with
  | some base =>
    some (base ++ "/functions/v1/wallpaper-service?resolution=" ++
      resolutionMapped resolution ++ "&date=" ++ toString today)
  | none => none

/-- Does the fetched response make `downloadAndCache` throw?  This is the
case for a network error, a JSON (error) response body, or an empty blob. -/
def fetchFails (fetch : FetchResult) : Bool :=
  match fetch with
  | FetchResult.err => true
  | FetchResult.ok contentType blob _ =>
    hasSubstring contentType "application/json" || blob.size == 0

/-- `downloadAndCache`: issue the request, validate the response, compute the
true origin URL (header value when it is a well-formed absolute URL, else the
locally stored metadata for today's key, else the request URL), and persist
the payload plus metadata under today's key with the 48-hour TTL — except
that a `4k` payload below 500 KB is returned flagged `isFallback = true`
without being cached.  The two `indexedDBCache.set` calls are fire-and-forget
and each may fail; a failed write leaves the store without that record while
the function's result is unaffected.  Throwing paths are modelled as
`Except.error`; the store is unchanged on error. -/
def downloadAndCache (store : Store) (requestUrl : String)
    (resolution : String) (today : Nat) (fetch : FetchResult)
    (w : WriteOutcome) :
    Except Unit (DownloadResult × Store) :=
  match fetch with
  | FetchResult.err => Except.error ()
  | FetchResult.ok contentType blob src =>
    if hasSubstring contentType "application/json" then Except.error ()
    else if blob.size = 0 then Except.error ()
    else
      let headerVal := src.getD ""
      let sourceUrl :=
        if beginsWith headerVal "http://" || beginsWith headerVal "https://" then
          headerVal
        else
          match getOriginalUrl store resolution today with
          | some existing => existing
          | none => requestUrl
      if resolution = "4k" ∧ blob.size < 500 * 1024 then
        Except.ok
          ({ blobUrl := Url.blobUrl blob, originalUrl := sourceUrl,
             isFallback := true }, store)
      else
        let store1 :=
          if w.blobOk then
            storeSet store (getTodayCacheKey resolution today)
              (Stored.blob blob) (today + WALLPAPER_TTL_DAYS)
          else store
        let store2 :=
          if w.metaOk then
            storeSet store1 (Key.wallpaper resolution today true)
              (Stored.meta sourceUrl) (today + WALLPAPER_TTL_DAYS)
          else store1
        Except.ok
          ({ blobUrl := Url.blobUrl blob, originalUrl := sourceUrl,
             isFallback := false }, store2)

/-- Is the fetched response a genuine (non-fallback) payload for the
category: a response that throws nothing (no network error, no JSON error
body, non-empty) and is not an undersized (< 500 KB) `4k` payload?  Exactly
these downloads make `downloadAndCache` return `isFallback = false`, which
is the sole trigger of `markUpdateSuccess`. -/
def genuinePayload (resolution : String) (fetch : FetchResult) : Bool :=
  match fetch with
  | FetchResult.err => false
  | FetchResult.ok contentType blob _ =>
    !hasSubstring contentType "application/json" && !(blob.size == 0) &&
      !(decide (resolution = "4k" ∧ blob.size < 500 * 1024))

/-- The part of the download section of `_getWallpaperInternal` that runs
once a candidate URL has been resolved, parameterised by the `shouldRefresh`
flag and the `fallbackCache` local.  An `Except.error` models the re-thrown
download error that the outer `catch` of `_getWallpaperInternal` converts
into the fallback-image record. -/
def downloadBranch (st : ServiceState) (resolution : String) (today : Nat)
    (wallpaperUrl : String) (fetch : FetchResult) (w : WriteOutcome)
    (shouldRefresh : Bool) (fallbackCache : Option SmartCacheResult) :
    Except (ServiceState × List SvcAction)
      (WallpaperResult × ServiceState × List SvcAction) :=
  match downloadAndCache st.store wallpaperUrl resolution today fetch w with
    | Except.ok (downloaded, store') =>
      if downloaded.isFallback = false then
        let st1 := markUpdateSuccess { st with store := store' } resolution today
        let st2 :=
          if shouldRefresh then
            { st1 with store := storeDelete (storeDelete st1.store (getYesterdayCacheKey resolution today)) (Key.wallpaper resolution (today - 1) true) }
          else st1
        Except.ok
          ({ url := downloaded.blobUrl, isFromCache := false, isToday := true,
             needsUpdate := false, originalUrl := some downloaded.originalUrl },
           st2, [SvcAction.download resolution])
      else
        let st2 := (scheduleRetry { st with store := store' } resolution).1
        Except.ok
          ({ url := downloaded.blobUrl, isFromCache := false, isToday := true,
             needsUpdate := true, originalUrl := some downloaded.originalUrl },
           st2, [SvcAction.download resolution])
    | Except.error _ =>
      match fallbackCache with
      | some fc =>
        let st2 := (scheduleRetry st resolution).1
        Except.ok
          ({ url := fc.url, isFromCache := true, isToday := false,
             needsUpdate := true, originalUrl := fc.originalUrl },
           st2, [SvcAction.download resolution])
      | none => Except.error (st, [SvcAction.download resolution])

/-- The download section of `_getWallpaperInternal`: resolve the candidate
URL, fall back to the local default (or the saved stale cache) when none is
configured, and otherwise run `downloadBranch`. -/
def getWallpaperDownload (st : ServiceState) (resolution : String)
    (today : Nat) (supabaseUrl : Option String) (fetch : FetchResult)
    (w : WriteOutcome) (shouldRefresh : Bool)
    (fallbackCache : Option SmartCacheResult) :
    Except (ServiceState × List SvcAction)
      (WallpaperResult × ServiceState × List SvcAction) :=
  match getWallpaperUrl supabaseUrl resolution today with
  | none =>
    match fallbackCache with
    | some fc =>
      Except.ok
        ({ url := fc.url, isFromCache := true, isToday := false,
           needsUpdate := true, originalUrl := fc.originalUrl }, st, [])
    | none =>
      Except.ok
        ({ url := Url.fallbackImage, isFromCache := false, isToday := true,
           needsUpdate := false, originalUrl := none }, st, [])
  | some wallpaperUrl =>
    downloadBranch st resolution today wallpaperUrl fetch w shouldRefresh
      fallbackCache

/-- The `try` block of `_getWallpaperInternal`: custom wallpaper shortcut,
smart-cache consultation, stale-cache early returns with background updates,
and the download section.  `custom` is the stored custom wallpaper provided
by the external `customWallpaperManager`. -/
def getWallpaperBody (st : ServiceState) (resolution : String) (today : Nat)
    (custom : Option String) (supabaseUrl : Option String)
    (fetch : FetchResult) (w : WriteOutcome) :
    Except (ServiceState × List SvcAction)
      (WallpaperResult × ServiceState × List SvcAction) :=
  if resolution = "custom" then
    match custom with
    | some u =>
      Except.ok
        ({ url := Url.customUrl u, isFromCache := true, isToday := true,
           needsUpdate := false, originalUrl := none }, st, [])
    | none =>
      Except.ok
        ({ url := Url.fallbackImage, isFromCache := false, isToday := true,
           needsUpdate := false, originalUrl := none }, st, [])
  else
    let shouldRefresh := shouldForceRefresh st resolution today
    let cachedResult := getSmartCache st.store resolution today
    if shouldRefresh then
      match cachedResult with
      | some c =>
        Except.ok
          ({ url := c.url, isFromCache := true, isToday := c.isToday,
             needsUpdate := true, originalUrl := c.originalUrl },
           st, [SvcAction.backgroundUpdate resolution])
      | none => getWallpaperDownload st resolution today supabaseUrl fetch w true none
    else
      match cachedResult with
      | some c =>
        if c.originalUrl.isNone ∧ c.isToday = true then
          let st1 := { st with store := storeDelete st.store (getTodayCacheKey resolution today) }
          getWallpaperDownload st1 resolution today supabaseUrl fetch w false (some c)
        else if c.originalUrl.isSome then
          Except.ok
            ({ url := c.url, isFromCache := true, isToday := c.isToday,
               needsUpdate := !c.isToday, originalUrl := c.originalUrl },
             st, if c.isToday then [] else [SvcAction.backgroundUpdate resolution])
        else
          Except.ok
            ({ url := c.url, isFromCache := true, isToday := c.isToday,
               needsUpdate := true, originalUrl := c.originalUrl },
             st, [SvcAction.backgroundUpdate resolution])
      | none => getWallpaperDownload st resolution today supabaseUrl fetch w false none

/-- `_getWallpaperInternal`: the body with its outer `catch`, which converts
any escaped error into the local fallback image flagged `needsUpdate`. -/
def getWallpaperInternal (st : ServiceState) (resolution : String)
    (today : Nat) (custom : Option String) (supabaseUrl : Option String)
    (fetch : FetchResult) (w : WriteOutcome) :
    WallpaperResult × ServiceState × List SvcAction :=
  match getWallpaperBody st resolution today custom supabaseUrl fetch w with
  | Except.ok out => out
  | Except.error (st', acts) =>
    ({ url := Url.fallbackImage, isFromCache := false, isToday := true,
       needsUpdate := true, originalUrl := none }, st', acts)

/-- The body of `updateWallpaperInBackground` once a candidate URL exists:
download and cache; mark success only for a genuine (non-fallback) payload,
otherwise schedule a retry; a thrown download error also schedules a retry. -/
def backgroundDownloadStep (st : ServiceState) (resolution : String)
    (today : Nat) (wallpaperUrl : String) (fetch : FetchResult)
    (w : WriteOutcome) : ServiceState × List SvcAction :=
  match downloadAndCache st.store wallpaperUrl resolution today fetch w with
  | Except.ok (result, store') =>
    if result.isFallback = false then
      (markUpdateSuccess { st with store := store' } resolution today,
       [SvcAction.download resolution])
    else
      ((scheduleRetry { st with store := store' } resolution).1,
       [SvcAction.download resolution])
  | Except.error _ =>
    ((scheduleRetry st resolution).1, [SvcAction.download resolution])

/-- `updateWallpaperInBackground` proper: resolve the candidate URL (doing
nothing when no Supabase URL is configured) and run the download step. -/
def updateWallpaperInBackground (st : ServiceState) (resolution : String)
    (today : Nat) (supabaseUrl : Option String) (fetch : FetchResult)
    (w : WriteOutcome) : ServiceState × List SvcAction :=
  match getWallpaperUrl supabaseUrl resolution today with
  | none => (st, [])
  | some wallpaperUrl =>
    backgroundDownloadStep st resolution today wallpaperUrl fetch w

/-- A retry timer firing: if a timer is pending for the category, perform the
callback bookkeeping and run the background update; otherwise nothing. -/
def retryTimerFire (st : ServiceState) (resolution : String) (today : Nat)
    (supabaseUrl : Option String) (fetch : FetchResult) (w : WriteOutcome) :
    ServiceState × List SvcAction :=
  match lookupStr st.retryTimers resolution with
  | some _ =>
    updateWallpaperInBackground (retryFireCounts st resolution) resolution
      today supabaseUrl fetch w
  | none => (st, [])

/-- Does the key belong to the wallpaper namespace?  The filter
`key.startsWith('wallpaper-optimized:')` of `cleanupExpiredCache`. -/
def isWallpaperKey : Key → Bool
  | Key.wallpaper _ _ _ => true
  | Key.other _ => false

/-- Is the date encoded in the key strictly before `cutoffDate = today − 3`?
(`dateMatch[1] < cutoffDate` on `YYYY-MM-DD` strings, as a day-index
comparison; non-wallpaper keys carry no date and never match). -/
def keyExpired (today : Nat) : Key → Bool
  | Key.wallpaper _ d _ => decide (d < today - 3)
  | Key.other _ => false

/-- The body of the deletion loop of `cleanupExpiredCache`. -/
def cleanupStep (today : Nat) (s : Store) (k : Key) : Store :=
  if keyExpired today k then storeDelete s k else s

/-- `cleanupExpiredCache`: delete every `wallpaper-optimized:` key whose
encoded date is before `cutoffDate = today − 3` (string comparison on dates,
modelled as the day-index comparison `d < today - 3`). -/
def cleanupExpiredCache (store : Store) (today : Nat) : Store :=
  let wallpaperKeys := (store.map Prod.fst).filter isWallpaperKey
  wallpaperKeys.foldl (cleanupStep today) store

/-- The delays observed across up to `n` consecutive failure cycles for one
category: each cycle schedules a retry (collecting its delay), lets the timer
fire, and has the retried background update fail again, which is what invokes
the next `scheduleRetry`. -/
def failureDelays (resolution : String) : Nat → ServiceState → List Nat
  | 0, _ => []
  | n + 1, st =>
    match scheduleRetry st resolution with
    | (st', some d) => d :: failureDelays resolution n (retryFireCounts st' resolution)
    | (_, none) => []

/-- The maximum of a list of dates (`none` on the empty list); the pick the
spec describes for tier 3 of the cache resolver ("select the lexicographically
greatest date"). -/
def listMax? : List Nat → Option Nat
  | [] => none
  | d :: rest =>
    match listMax? rest with
    | none => some d
    | some m => some (max d m)

/-- Tier order exactly as claim C6 states it, including the requirement that
today's entry be present *and non-empty* before it is returned with
`isToday = true`.  This definition follows the claim's words, for comparison
with `getSmartCache` (which is translated from the source). -/
def getSmartCacheClaimed (store : Store) (resolution : String) (today : Nat) :
    Option SmartCacheResult :=
  let tier1 :=
    match lookupBlob store (getTodayCacheKey resolution today) with
    | some b =>
      if b.size ≠ 0 then
        some (SmartCacheResult.mk (Url.blobUrl b) true
          (getOriginalUrl store resolution today))
      else none
    | none => none
  match tier1 with
  | some r => some r
  | none =>
    match lookupBlob store (getYesterdayCacheKey resolution today) with
    | some b =>
      some ⟨Url.blobUrl b, false, getOriginalUrl store resolution (today - 1)⟩
    | none =>
      match listMax? (wallpaperDatesFor store resolution) with
      | some d =>
        match lookupBlob store (Key.wallpaper resolution d false) with
        | some b =>
          some ⟨Url.blobUrl b, false, getOriginalUrl store resolution d⟩
        | none => none
      | none => none

/-- The amendment of claim C6: identical tier order, but today's entry is
returned whenever *present* (the code's `if (todayCache)` does not inspect
the payload size), and tier 3 picks the greatest stored date. -/
def getSmartCacheAmendedSpec (store : Store) (resolution : String)
    (today : Nat) : Option SmartCacheResult :=
  match lookupBlob store (getTodayCacheKey resolution today) with
  | some b => some ⟨Url.blobUrl b, true, getOriginalUrl store resolution today⟩
  | none =>
    match lookupBlob store (getYesterdayCacheKey resolution today) with
    | some b =>
      some ⟨Url.blobUrl b, false, getOriginalUrl store resolution (today - 1)⟩
    | none =>
      match listMax? (wallpaperDatesFor store resolution) with
      | some d =>
        match lookupBlob store (Key.wallpaper resolution d false) with
        | some b =>
          some ⟨Url.blobUrl b, false, getOriginalUrl store resolution d⟩
        | none => none
      | none => none

/-- A state of the whole service together with the current calendar day.
Steps of `sysStep` are the service's operations, each applied atomically with
reliable storage (every IndexedDB write inside an operation completes within
it). -/
structure SysState where
  svc : ServiceState
  today : Nat
deriving DecidableEq, Repr

/-- The events that drive the service: a `getWallpaper` call (with the
environment it observes), a background update completing, a retry timer
firing, a cleanup pass, the local calendar day advancing, and the store's
48-hour TTL lapsing for an entry (`expire k` removes the entry at `k` once
the current day has reached its recorded expiry day — the exact moment
within that day depends on the wall clock, so the transition may fire at any
point from then on). -/
inductive SysEv where
  | getWallpaper (resolution : String) (custom : Option String)
      (supabaseUrl : Option String) (fetch : FetchResult) (w : WriteOutcome)
  | background (resolution : String) (supabaseUrl : Option String)
      (fetch : FetchResult) (w : WriteOutcome)
  | retryFire (resolution : String) (supabaseUrl : Option String)
      (fetch : FetchResult) (w : WriteOutcome)
  | cleanup
  | nextDay
  | expire (k : Key)
deriving DecidableEq, Repr

/-- One step of the service-level transition system. -/
def sysStep (s : SysState) : SysEv → SysState
  | SysEv.getWallpaper res custom url fetch w =>
    { s with svc := (getWallpaperInternal s.svc res s.today custom url fetch w).2.1 }
  | SysEv.background res url fetch w =>
    { s with svc := (updateWallpaperInBackground s.svc res s.today url fetch w).1 }
  | SysEv.retryFire res url fetch w =>
    { s with svc := (retryTimerFire s.svc res s.today url fetch w).1 }
  | SysEv.cleanup =>
    { s with svc := { s.svc with store := cleanupExpiredCache s.svc.store s.today } }
  | SysEv.nextDay => { s with today := s.today + 1 }
  | SysEv.expire k =>
    match storeGet s.svc.store k with
    | some entry =>
      if entry.expiresAt ≤ s.today then
        { s with svc := { s.svc with store := storeDelete s.svc.store k } }
      else s
    | none => s

/-- The initial state: empty store, no markers, no retry state.  The day
index starts at 100, standing for an arbitrary calendar date (real
`YYYY-MM-DD` dates are never near the origin of the day count). -/
def sysInit : SysState := ⟨⟨[], [], [], []⟩, 100⟩

/-- Run the service from `sysInit` through a list of events. -/
def sysRun (evs : List SysEv) : SysState := evs.foldl sysStep sysInit

/-- Does the event perform a download for the category that returns a
genuine (non-fallback) payload — a configured candidate URL together with a
valid, correctly sized response? -/
def eventGenuineDownload (e : SysEv) (res : String) : Prop :=
  match e with
  | SysEv.getWallpaper r _ url fetch _ =>
    r = res ∧ url.isSome = true ∧ genuinePayload r fetch = true
  | SysEv.background r url fetch _ =>
    r = res ∧ url.isSome = true ∧ genuinePayload r fetch = true
  | SysEv.retryFire r url fetch _ =>
    r = res ∧ url.isSome = true ∧ genuinePayload r fetch = true
  | SysEv.cleanup => False
  | SysEv.nextDay => False
  | SysEv.expire _ => False

/-- The four wallpaper categories the background drivers iterate over. -/
def standardResolutions : List String := ["1080p", "720p", "4k", "mobile"]

/-- State for the download-concurrency model: the success markers, the
current day, and the set of outstanding download operations, each an
invocation of `downloadAndCache` that has started and not yet settled
(`inflight` holds `(resolution, opId)` pairs). -/
structure ConcState where
  markers : List (String × Nat)
  today : Nat
  inflight : List (String × Nat)
  nextId : Nat
deriving DecidableEq, Repr

/-- Interleaving events for the concurrency model: the page becoming visible
(`onPageVisible` fires `updateWallpaperInBackground` for every category whose
success marker is not today's date; the download it starts stays outstanding
until it settles), and a download settling (successfully or not). -/
inductive ConcEv where
  | pageVisible
  | settle (id : Nat) (success : Bool)
deriving DecidableEq, Repr

/-- Spawn the background download that `onPageVisible` triggers for one
category (none when the marker already holds today's date). -/
def spawnFor (s : ConcState) (res : String) : ConcState :=
  match lookupStr s.markers res with
  | some d =>
    if d = s.today then s
    else { s with inflight := (res, s.nextId) :: s.inflight,
                  nextId := s.nextId + 1 }
  | none =>
    { s with inflight := (res, s.nextId) :: s.inflight, nextId := s.nextId + 1 }

/-- One step of the concurrency model. -/
def concStep (s : ConcState) : ConcEv → ConcState
  | ConcEv.pageVisible => standardResolutions.foldl spawnFor s
  | ConcEv.settle id success =>
    match s.inflight.find? (fun p => p.2 == id) with
    | none => s
    | some (res, _) =>
      let s1 := { s with inflight := s.inflight.filter (fun p => !(p.2 == id)) }
      if success then { s1 with markers := setStr s1.markers res s1.today }
      else s1

/-- Run the concurrency model from an empty initial state. -/
def concRun (evs : List ConcEv) : ConcState :=
  evs.foldl concStep ⟨[], 100, [], 0⟩

/-- How many downloads are outstanding for one category. -/
def inflightCount (s : ConcState) (res : String) : Nat :=
  (s.inflight.filter (fun p => p.1 == res)).length

/-- State of the request deduplicator (`loadingPromises`): the map from
category to the identity of the pending promise stored for it, a counter
minting promise identities, and the set of identities whose promise has
already settled (history, used to state that the map never retains a settled
entry). -/
structure DedupState where
  loading : List (String × Nat)
  nextId : Nat
  settled : List Nat
deriving DecidableEq, Repr

/-- Deduplicator events: a `getWallpaper` call arriving for a category, and
the pending promise for a category settling (success or failure — the
`finally` clause deletes the map entry in both cases). -/
inductive DedupEv where
  | call (res : String)
  | settle (res : String)
deriving DecidableEq, Repr

/-- A `getWallpaper` call: if the map holds a pending promise for the
category the caller gets that same promise and nothing changes; otherwise a
fresh promise is created and stored. -/
def dedupCall (s : DedupState) (res : String) : Nat × DedupState :=
  match lookupStr s.loading res with
  | some id => (id, s)
  | none =>
    (s.nextId,
     { s with loading := (res, s.nextId) :: s.loading, nextId := s.nextId + 1 })

/-- The pending promise for a category settling: the `finally` clause removes
the map entry, and the promise's identity is recorded as settled. -/
def dedupSettle (s : DedupState) (res : String) : DedupState :=
  match lookupStr s.loading res with
  | some id =>
    { s with loading := removeStr s.loading res, settled := id :: s.settled }
  | none => s

/-- One step of the deduplicator model. -/
def dedupStep (s : DedupState) : DedupEv → DedupState
  | DedupEv.call res => (dedupCall s res).2
  | DedupEv.settle res => dedupSettle s res

/-- Run the deduplicator from an empty map. -/
def dedupRun (evs : List DedupEv) : DedupState :=
  evs.foldl dedupStep ⟨[], 0, []⟩

/-- Ascending sortedness of a list of dates. -/
def sortedAscBool : List Nat → Bool
  | [] => true
  | [_] => true
  | x :: y :: rest => decide (x ≤ y) && sortedAscBool (y :: rest)

/-- The service state an `_getWallpaperInternal` run leaves behind, whether
its body returned normally or threw into the outer `catch`. -/
def exceptState
    (e : Except (ServiceState × List SvcAction)
          (WallpaperResult × ServiceState × List SvcAction)) : ServiceState :=
  match e with
  | Except.ok (_, st, _) => st
  | Except.error (st, _) => st

/-- The inductive invariant of the deduplicator: categories are bound at most
once, pending promise identities are pairwise distinct, no pending identity
has settled, and the identity counter bounds every minted identity. -/
def DedupInv (s : DedupState) : Prop :=
  (s.loading.map Prod.fst).Nodup ∧
  (s.loading.map Prod.snd).Nodup ∧
  (∀ p ∈ s.loading, p.2 ∉ s.settled ∧ p.2 < s.nextId) ∧
  (∀ i ∈ s.settled, i < s.nextId)

/-- Reading through a deletion. -/
theorem storeGet_storeDelete (s : Store) (k k' : Key) :
    storeGet (storeDelete s k) k' = if k' = k then none else storeGet s k' := by
  induction s with
  | nil => simp [storeDelete, storeGet]
  | cons e rest ih =>
    obtain ⟨k0, v0⟩ := e
    by_cases h0 : k0 = k
    · have hd : storeDelete ((k0, v0) :: rest) k = storeDelete rest k := by
        simp [storeDelete, h0]
      rw [hd, ih]
      by_cases h1 : k' = k
      · simp [h1]
      · have hne : ¬ (k0 = k') := fun hh => h1 (hh.symm.trans h0)
        simp [h1, storeGet, hne]
    · have hd : storeDelete ((k0, v0) :: rest) k = (k0, v0) :: storeDelete rest k := by
        simp [storeDelete, h0]
      rw [hd]
      by_cases h1 : k0 = k'
      · have h2 : ¬ (k' = k) := fun hh => h0 (h1.trans hh)
        simp [storeGet, h1, h2]
      · simp [storeGet, h1, ih]

/-- Reading through an overwriting write. -/
theorem storeGet_storeSet (s : Store) (k : Key) (v : Stored) (x : Nat)
    (k' : Key) :
    storeGet (storeSet s k v x) k' =
      if k' = k then some ⟨v, x⟩ else storeGet s k' := by
  unfold storeSet
  by_cases h : k' = k
  · simp [storeGet, h]
  · have hne : ¬ (k = k') := fun hh => h hh.symm
    simp [storeGet, hne, storeGet_storeDelete, h]

/-- Reading a string-keyed association list through a removal. -/
theorem lookupStr_removeStr (l : List (String × Nat)) (k k' : String) :
    lookupStr (removeStr l k) k' = if k' = k then none else lookupStr l k' := by
  induction l with
  | nil => simp [removeStr, lookupStr]
  | cons e rest ih =>
    obtain ⟨k0, v0⟩ := e
    by_cases h0 : k0 = k
    · have hd : removeStr ((k0, v0) :: rest) k = removeStr rest k := by
        simp [removeStr, h0]
      rw [hd, ih]
      by_cases h1 : k' = k
      · simp [h1]
      · have hne : ¬ (k0 = k') := fun hh => h1 (hh.symm.trans h0)
        simp [h1, lookupStr, hne]
    · have hd : removeStr ((k0, v0) :: rest) k = (k0, v0) :: removeStr rest k := by
        simp [removeStr, h0]
      rw [hd]
      by_cases h1 : k0 = k'
      · have h2 : ¬ (k' = k) := fun hh => h0 (h1.trans hh)
        simp [lookupStr, h1, h2]
      · simp [lookupStr, h1, ih]

/-- Reading a string-keyed association list through an overwrite. -/
theorem lookupStr_setStr (l : List (String × Nat)) (k : String) (v : Nat)
    (k' : String) :
    lookupStr (setStr l k v) k' = if k' = k then some v else lookupStr l k' := by
  unfold setStr
  by_cases h : k' = k
  · simp [lookupStr, h]
  · have hne : ¬ (k = k') := fun hh => h hh.symm
    simp [lookupStr, hne, lookupStr_removeStr, h]

/-- A key absent from the key list reads as `none`. -/
theorem storeGet_eq_none_of_not_mem (s : Store) (k : Key)
    (h : k ∉ s.map Prod.fst) : storeGet s k = none := by
  induction s with
  | nil => rfl
  | cons e rest ih =>
    obtain ⟨k0, v0⟩ := e
    simp only [List.map_cons, List.mem_cons] at h
    push_neg at h
    have h1 : ¬ (k0 = k) := fun hh => h.1 hh.symm
    simp [storeGet, h1, ih h.2]

/-- A successful string lookup locates a member of the list. -/
theorem lookupStr_mem (l : List (String × Nat)) (k : String) (v : Nat)
    (h : lookupStr l k = some v) : (k, v) ∈ l := by
  induction l with
  | nil => simp [lookupStr] at h
  | cons e rest ih =>
    obtain ⟨k0, v0⟩ := e
    by_cases h0 : k0 = k
    · subst h0
      simp [lookupStr] at h
      simp [h]
    · simp [lookupStr, h0] at h
      exact List.mem_cons_of_mem _ (ih h)

/-- A failed string lookup means the key is absent. -/
theorem not_mem_of_lookupStr_eq_none (l : List (String × Nat)) (k : String)
    (h : lookupStr l k = none) : k ∉ l.map Prod.fst := by
  induction l with
  | nil => simp
  | cons e rest ih =>
    obtain ⟨k0, v0⟩ := e
    by_cases h0 : k0 = k
    · subst h0
      simp [lookupStr] at h
    · simp [lookupStr, h0] at h
      have h1 : ¬ (k = k0) := fun hh => h0 hh.symm
      simp [ih h, h1]

/-- Removal only discards bindings of the removed key. -/
theorem mem_removeStr (l : List (String × Nat)) (k : String) (p : String × Nat)
    (h : p ∈ removeStr l k) : p ∈ l ∧ p.1 ≠ k := by
  induction l with
  | nil => simp [removeStr] at h
  | cons e rest ih =>
    obtain ⟨k0, v0⟩ := e
    by_cases h0 : k0 = k
    · rw [show removeStr ((k0, v0) :: rest) k = removeStr rest k from by
        simp [removeStr, h0]] at h
      exact ⟨List.mem_cons_of_mem _ (ih h).1, (ih h).2⟩
    · rw [show removeStr ((k0, v0) :: rest) k = (k0, v0) :: removeStr rest k from by
        simp [removeStr, h0]] at h
      rcases List.mem_cons.1 h with h1 | h1
      · subst h1
        exact ⟨List.mem_cons_self _ _, h0⟩
      · exact ⟨List.mem_cons_of_mem _ (ih h1).1, (ih h1).2⟩

/-- Removal yields a sublist. -/
theorem removeStr_sublist (l : List (String × Nat)) (k : String) :
    (removeStr l k).Sublist l := by
  induction l with
  | nil => simp [removeStr]
  | cons e rest ih =>
    obtain ⟨k0, v0⟩ := e
    by_cases h0 : k0 = k
    · rw [show removeStr ((k0, v0) :: rest) k = removeStr rest k from by
        simp [removeStr, h0]]
      exact ih.cons _
    · rw [show removeStr ((k0, v0) :: rest) k = (k0, v0) :: removeStr rest k from by
        simp [removeStr, h0]]
      exact ih.cons₂ _

/-- Insertion preserves the maximum. -/
theorem listMax?_insertAsc (x : Nat) (l : List Nat) :
    listMax? (insertAsc x l) = listMax? (x :: l) := by
  induction l with
  | nil => rfl
  | cons y ys ih =>
    by_cases h : x ≤ y
    · simp [insertAsc, h]
    · simp only [insertAsc, if_neg h]
      simp only [listMax?, ih]
      cases hm : listMax? ys with
      | none => simp [Nat.max_comm]
      | some m => simp [Nat.max_left_comm]

/-- Sorting preserves the maximum. -/
theorem listMax?_sortAsc (l : List Nat) : listMax? (sortAsc l) = listMax? l := by
  induction l with
  | nil => rfl
  | cons x xs ih => simp only [sortAsc, listMax?_insertAsc, listMax?, ih]

/-- Insertion into a sorted list stays sorted. -/
theorem sortedAscBool_insertAsc (x : Nat) (l : List Nat)
    (h : sortedAscBool l = true) : sortedAscBool (insertAsc x l) = true := by
  induction l with
  | nil => rfl
  | cons y ys ih =>
    by_cases hxy : x ≤ y
    · simp [insertAsc, hxy, sortedAscBool, h]
    · cases ys with
      | nil =>
        simp [insertAsc, hxy, sortedAscBool]
        omega
      | cons z zs =>
        simp only [sortedAscBool, Bool.and_eq_true, decide_eq_true_eq] at h
        have hs := ih h.2
        simp only [insertAsc, if_neg hxy]
        by_cases hxz : x ≤ z
        · simp only [insertAsc, if_pos hxz] at hs ⊢
          rw [show sortedAscBool (y :: x :: z :: zs) =
              (decide (y ≤ x) && sortedAscBool (x :: z :: zs)) from rfl, hs]
          simp
          omega
        · simp only [insertAsc, if_neg hxz] at hs ⊢
          rw [show sortedAscBool (y :: z :: insertAsc x zs) =
              (decide (y ≤ z) && sortedAscBool (z :: insertAsc x zs)) from rfl, hs]
          simp [h.1]

/-- The output of the insertion sort is sorted. -/
theorem sortedAscBool_sortAsc (l : List Nat) :
    sortedAscBool (sortAsc l) = true := by
  induction l with
  | nil => rfl
  | cons x xs ih => exact sortedAscBool_insertAsc x _ ih

/-- The maximum of a non-empty list bounds its head. -/
theorem listMax?_cons_ge (y : Nat) (l : List Nat) (m : Nat)
    (h : listMax? (y :: l) = some m) : y ≤ m := by
  simp only [listMax?] at h
  cases hl : listMax? l with
  | none =>
    rw [hl] at h
    simp only [Option.some.injEq] at h
    omega
  | some mm =>
    rw [hl] at h
    simp only [Option.some.injEq] at h
    subst h
    exact Nat.le_max_left y mm

/-- In a sorted list, the last element is the maximum. -/
theorem getLast?_eq_listMax? (l : List Nat) (h : sortedAscBool l = true) :
    l.getLast? = listMax? l := by
  induction l with
  | nil => rfl
  | cons x xs ih =>
    cases xs with
    | nil => rfl
    | cons y ys =>
      simp only [sortedAscBool, Bool.and_eq_true, decide_eq_true_eq] at h
      have htail := ih h.2
      rw [List.getLast?_cons_cons, htail]
      cases hm : listMax? (y :: ys) with
      | none => cases hy : listMax? ys <;> simp [listMax?, hy] at hm
      | some m =>
        have hym : y ≤ m := listMax?_cons_ge y ys m hm
        simp only [listMax?] at hm ⊢
        rw [hm]
        have hmax : max x m = m := Nat.max_eq_right (le_trans h.1 hym)
        simp [hmax]

/-- The pick `sort().reverse()[0]` of the source equals the maximum date the
spec describes. -/
theorem sortAsc_reverse_head (l : List Nat) :
    (sortAsc l).reverse.head? = listMax? l := by
  rw [List.head?_reverse, getLast?_eq_listMax? _ (sortedAscBool_sortAsc l),
    listMax?_sortAsc]

/-- Effect of the cleanup loop on a single read, for an arbitrary key list. -/
theorem storeGet_foldl_cleanupStep (t : Nat) (ks : List Key) (s : Store)
    (k : Key) :
    storeGet (ks.foldl (cleanupStep t) s) k =
      if k ∈ ks ∧ keyExpired t k = true then none else storeGet s k := by
  induction ks generalizing s with
  | nil => simp
  | cons k0 ks ih =>
    rw [List.foldl_cons, ih]
    by_cases hk : k ∈ ks ∧ keyExpired t k = true
    · rw [if_pos hk, if_pos ⟨List.mem_cons_of_mem _ hk.1, hk.2⟩]
    · rw [if_neg hk]
      unfold cleanupStep
      by_cases he0 : keyExpired t k0 = true
      · rw [if_pos he0, storeGet_storeDelete]
        by_cases hkk : k = k0
        · subst hkk
          rw [if_pos rfl, if_pos ⟨List.mem_cons_self _ _, he0⟩]
        · rw [if_neg hkk]
          have hc : ¬(k ∈ k0 :: ks ∧ keyExpired t k = true) := by
            rintro ⟨hmem, hexp⟩
            rcases List.mem_cons.1 hmem with h1 | h1
            · exact hkk h1
            · exact hk ⟨h1, hexp⟩
          rw [if_neg hc]
      · rw [if_neg he0]
        have hc : ¬(k ∈ k0 :: ks ∧ keyExpired t k = true) := by
          rintro ⟨hmem, hexp⟩
          rcases List.mem_cons.1 hmem with h1 | h1
          · exact he0 (h1 ▸ hexp)
          · exact hk ⟨h1, hexp⟩
        rw [if_neg hc]

/-- What a read observes after a cleanup pass. -/
theorem storeGet_cleanup (store : Store) (t : Nat) (k : Key) :
    storeGet (cleanupExpiredCache store t) k =
      if keyExpired t k = true then none else storeGet store k := by
  unfold cleanupExpiredCache
  rw [storeGet_foldl_cleanupStep]
  by_cases he : keyExpired t k = true
  · rw [if_pos he]
    by_cases hm : k ∈ (store.map Prod.fst).filter isWallpaperKey
    · rw [if_pos ⟨hm, he⟩]
    · rw [if_neg (fun hc => hm hc.1)]
      have hw : isWallpaperKey k = true := by
        cases k with
        | wallpaper r d m => rfl
        | other n => simp [keyExpired] at he
      have hnm : k ∉ store.map Prod.fst :=
        fun hmem => hm (List.mem_filter.2 ⟨hmem, hw⟩)
      exact storeGet_eq_none_of_not_mem store k hnm
  · rw [if_neg he, if_neg (fun hc => he hc.2)]

/-- C9: after `cleanupExpiredCache`, every wallpaper key whose encoded date is
more than 3 days before the current local date reads as deleted, while every
wallpaper key within the last 3 days and every non-wallpaper key reads exactly
as before the pass. -/
theorem c9_cleanup_retention (store : Store) (today : Nat) (k : Key) :
    storeGet (cleanupExpiredCache store today) k =
      match k with
      | Key.wallpaper _ d _ => if d + 3 < today then none else storeGet store k
      | Key.other _ => storeGet store k := by
  rw [storeGet_cleanup]
  cases k with
  | wallpaper r d m =>
    have hiff : (d < today - 3) ↔ (d + 3 < today) := by omega
    simp only [keyExpired, decide_eq_true_eq]
    by_cases h : d + 3 < today
    · rw [if_pos (hiff.2 h), if_pos h]
    · rw [if_neg (fun hh => h (hiff.1 hh)), if_neg h]
  | other n => simp [keyExpired]

/-- C6 (amended): `getSmartCache` follows the claimed tier order except that
today's entry is returned whenever it is present — its payload size is never
inspected, so "non-empty" must be dropped from the claim. -/
theorem c6_amended_tier_order (store : Store) (res : String) (today : Nat) :
    getSmartCache store res today = getSmartCacheAmendedSpec store res today := by
  unfold getSmartCache getSmartCacheAmendedSpec
  rw [sortAsc_reverse_head]

/-- C6 (counterexample): with an empty (size-0) blob stored for today and a
non-empty blob for yesterday, the code returns today's empty entry with
`isToday = true`, whereas the claimed tier order (which requires today's
entry to be non-empty) would return yesterday's entry with `isToday = false`. -/
theorem c6_counterexample :
    getSmartCache
        [(Key.wallpaper "1080p" 10 false, ⟨Stored.blob ⟨0⟩, 12⟩),
         (Key.wallpaper "1080p" 9 false, ⟨Stored.blob ⟨7⟩, 11⟩)] "1080p" 10 =
      some ⟨Url.blobUrl ⟨0⟩, true, none⟩ ∧
    getSmartCacheClaimed
        [(Key.wallpaper "1080p" 10 false, ⟨Stored.blob ⟨0⟩, 12⟩),
         (Key.wallpaper "1080p" 9 false, ⟨Stored.blob ⟨7⟩, 11⟩)] "1080p" 10 =
      some ⟨Url.blobUrl ⟨7⟩, false, none⟩ := by
  exact ⟨by decide, by decide⟩

/-- C5: `scheduleRetry` is a no-op when a timer is pending; with no pending
timer it schedules nothing once the attempt count (default 0) has reached 8,
and otherwise arms a timer whose delay is the backoff table indexed by the
attempt count modulo 4; across consecutive failures the observed delays are
30s, 60s, 120s, 240s, 30s, 60s, 120s, 240s and no further retry is scheduled
after 8 attempts. -/
theorem c5_scheduleRetry_backoff :
    (∀ (st : ServiceState) (res : String),
        (lookupStr st.retryTimers res).isSome →
        scheduleRetry st res = (st, none)) ∧
    (∀ (st : ServiceState) (res : String),
        lookupStr st.retryTimers res = none →
        MAX_RETRY_COUNT ≤ (lookupStr st.retryCounts res).getD 0 →
        scheduleRetry st res = (st, none)) ∧
    (∀ (st : ServiceState) (res : String),
        lookupStr st.retryTimers res = none →
        (lookupStr st.retryCounts res).getD 0 < MAX_RETRY_COUNT →
        (scheduleRetry st res).2 =
          some (RETRY_DELAYS_MS.getD ((lookupStr st.retryCounts res).getD 0 % 4) 0)) ∧
    failureDelays "1080p" 20 ⟨[], [], [], []⟩ =
      [30000, 60000, 120000, 240000, 30000, 60000, 120000, 240000] := by
  refine ⟨?_, ?_, ?_, by decide⟩
  · intro st res h
    obtain ⟨v, hv⟩ := Option.isSome_iff_exists.1 h
    simp [scheduleRetry, hv]
  · intro st res h1 h2
    simp [scheduleRetry, h1, h2]
  · intro st res h1 h2
    simp only [scheduleRetry, h1]
    rw [if_neg (Nat.not_le.2 h2)]
    norm_num [RETRY_DELAYS_MS]

/-- Witness for C5 at concrete states: a pending timer makes `scheduleRetry`
a no-op, a count of 8 schedules nothing, and a count of 5 schedules the
60-second delay. -/
theorem c5_witness :
    scheduleRetry ⟨[], [], [("1080p", 2)], []⟩ "1080p" =
      (⟨[], [], [("1080p", 2)], []⟩, none) ∧
    scheduleRetry ⟨[], [], [], [("1080p", 8)]⟩ "1080p" =
      (⟨[], [], [], [("1080p", 8)]⟩, none) ∧
    (scheduleRetry ⟨[], [], [], [("1080p", 5)]⟩ "1080p").2 = some 60000 := by
  refine ⟨?_, ?_, ?_⟩
  · exact c5_scheduleRetry_backoff.1 _ _ (by decide)
  · exact c5_scheduleRetry_backoff.2.1 _ _ (by rfl) (by decide)
  · have h := c5_scheduleRetry_backoff.2.2.1 ⟨[], [], [], [("1080p", 5)]⟩
      "1080p" (by rfl) (by decide)
    simpa using h

/-- C10: for the category `custom`, `_getWallpaperInternal` returns the
stored custom wallpaper as `{isFromCache := true, isToday := true,
needsUpdate := false}` when one exists and the static local default as
`{isFromCache := false, isToday := true, needsUpdate := false}` otherwise,
leaving the service state unchanged and performing no download, no cache
write, and no retry scheduling (the recorded action list is empty). -/
theorem c10_custom_no_network (st : ServiceState) (today : Nat)
    (custom : Option String) (supabaseUrl : Option String)
    (fetch : FetchResult) (w : WriteOutcome) :
    getWallpaperInternal st "custom" today custom supabaseUrl fetch w =
      ((match custom with
        | some u =>
          { url := Url.customUrl u, isFromCache := true, isToday := true,
            needsUpdate := false, originalUrl := none }
        | none =>
          { url := Url.fallbackImage, isFromCache := false, isToday := true,
            needsUpdate := false, originalUrl := none }),
       st, ([] : List SvcAction)) := by
  cases custom <;> rfl

/-- C2 (counterexample): a 4k download of 100 KB (below the 500 KB floor) is
returned flagged `isFallback = true`, but the store is returned unchanged —
the payload is not persisted under today's cache key, contradicting the
claim that it is still accepted into the cache. -/
theorem c2_counterexample :
    downloadAndCache [] "https://sb/f" "4k" 7
        (FetchResult.ok "image/jpeg" ⟨102400⟩ (some "https://src.example/a.jpg"))
        ⟨true, true⟩ =
      Except.ok ({ blobUrl := Url.blobUrl ⟨102400⟩,
                   originalUrl := "https://src.example/a.jpg",
                   isFallback := true }, ([] : Store)) ∧
    storeGet ([] : Store) (getTodayCacheKey "4k" 7) = none := by
  exact ⟨rfl, rfl⟩

/-- C2 (amended): a valid 4k payload below the 500 KB floor is returned with
a minted blob URL and `isFallback = true` rather than being rejected, but the
binary cache write is skipped: the store is returned exactly as it was. -/
theorem c2_amended_not_persisted (store : Store) (req : String) (today : Nat)
    (ct : String) (b : Blob) (src : Option String) (w : WriteOutcome)
    (hjson : hasSubstring ct "application/json" = false)
    (hsz : b.size ≠ 0) (hsmall : b.size < 500 * 1024) :
    ∃ origin, downloadAndCache store req "4k" today (FetchResult.ok ct b src) w =
      Except.ok ({ blobUrl := Url.blobUrl b, originalUrl := origin,
                   isFallback := true }, store) := by
  refine ⟨if beginsWith (src.getD "") "http://" || beginsWith (src.getD "") "https://"
      then src.getD ""
      else match getOriginalUrl store "4k" today with
        | some existing => existing
        | none => req, ?_⟩
  simp [downloadAndCache, hjson, hsz, hsmall]

/-- Witness for C2 (amended) at a concrete undersized 4k payload. -/
theorem c2_witness :
    ∃ origin, downloadAndCache [] "https://sb/f" "4k" 7
        (FetchResult.ok "image/jpeg" ⟨1024⟩ none) ⟨true, true⟩ =
      Except.ok ({ blobUrl := Url.blobUrl ⟨1024⟩, originalUrl := origin,
                   isFallback := true }, ([] : Store)) :=
  c2_amended_not_persisted [] "https://sb/f" 7 "image/jpeg" ⟨1024⟩ none
    ⟨true, true⟩ (by decide) (by decide) (by decide)

/-- C3 (counterexample): two page-visibility triggers before either download
settles leave two outstanding background downloads for the category `1080p`
— `updateWallpaperInBackground` is not routed through the deduplicator, so
"at most one outstanding download per category" fails in this interleaving. -/
theorem c3_counterexample :
    inflightCount (concRun [ConcEv.pageVisible, ConcEv.pageVisible]) "1080p" = 2 := by
  decide

/-- C7 (counterexample): with no Supabase URL configured (so every download
candidate fails vacuously) and no cache tier available, `getWallpaper`
returns the static local default with `needsUpdate = false`, not
`needsUpdate = true` as the claim requires. -/
theorem c7_counterexample :
    (getWallpaperInternal ⟨[], [], [], []⟩ "1080p" 5 none none FetchResult.err
        ⟨true, true⟩).1 =
      { url := Url.fallbackImage, isFromCache := false, isToday := true,
        needsUpdate := false, originalUrl := none } := by
  rfl

/-- A failing fetch (network error, JSON body, or empty payload) makes
`downloadAndCache` throw without touching the store. -/
theorem downloadAndCache_err (store : Store) (req : String) (res : String)
    (t : Nat) (fetch : FetchResult) (w : WriteOutcome)
    (h : fetchFails fetch = true) :
    downloadAndCache store req res t fetch w = Except.error () := by
  cases fetch with
  | err => rfl
  | ok ct b src =>
    simp only [fetchFails, Bool.or_eq_true, beq_iff_eq] at h
    by_cases hj : hasSubstring ct "application/json" = true
    · simp [downloadAndCache, hj]
    · rcases h with h | h
      · exact absurd h hj
      · simp [downloadAndCache, hj, h]

/-- With no cached fallback, a failing download makes the download section of
`_getWallpaperInternal` re-throw, leaving the state unchanged. -/
theorem download_section_err (st : ServiceState) (res : String) (t : Nat)
    (base : String) (fetch : FetchResult) (w : WriteOutcome) (sr : Bool)
    (hf : fetchFails fetch = true) :
    getWallpaperDownload st res t (some base) fetch w sr none =
      Except.error (st, [SvcAction.download res]) := by
  unfold getWallpaperDownload downloadBranch
  simp only [getWallpaperUrl]
  rw [downloadAndCache_err _ _ _ _ _ _ hf]

/-- With no configured service URL and no cached fallback, the download
section returns the local default flagged `needsUpdate = false`. -/
theorem download_section_noUrl (st : ServiceState) (res : String) (t : Nat)
    (fetch : FetchResult) (w : WriteOutcome) (sr : Bool) :
    getWallpaperDownload st res t none fetch w sr none =
      Except.ok
        ({ url := Url.fallbackImage, isFromCache := false, isToday := true,
           needsUpdate := false, originalUrl := none }, st, []) := rfl

/-- C1: `getWallpaper` never rejects — every error escaping the body of
`_getWallpaperInternal` is converted by the outer catch into the displayable
local-default record with its freshness flags; and when every download
candidate fails (no service URL, or a fetch that throws or delivers an
invalid payload) and no cache tier exists, the returned url is the static
local default. -/
theorem c1_getWallpaper_total :
    (∀ (st : ServiceState) (res : String) (today : Nat)
        (custom supabaseUrl : Option String) (fetch : FetchResult)
        (w : WriteOutcome) (est : ServiceState) (acts : List SvcAction),
        getWallpaperBody st res today custom supabaseUrl fetch w =
          Except.error (est, acts) →
        getWallpaperInternal st res today custom supabaseUrl fetch w =
          ({ url := Url.fallbackImage, isFromCache := false, isToday := true,
             needsUpdate := true, originalUrl := none }, est, acts)) ∧
    (∀ (st : ServiceState) (res : String) (today : Nat)
        (custom supabaseUrl : Option String) (fetch : FetchResult)
        (w : WriteOutcome),
        (res = "custom" → custom = none) →
        (supabaseUrl = none ∨ fetchFails fetch = true) →
        getSmartCache st.store res today = none →
        (getWallpaperInternal st res today custom supabaseUrl fetch w).1.url =
          Url.fallbackImage) := by
  constructor
  · intro st res today custom url fetch w est acts h
    unfold getWallpaperInternal
    rw [h]
  · intro st res today custom url fetch w hcu hfail hnc
    by_cases hres : res = "custom"
    · subst hres
      rw [hcu rfl]
      rfl
    · unfold getWallpaperInternal getWallpaperBody
      rw [if_neg hres]
      simp only [hnc]
      rcases hfail with hu | hf
      · subst hu
        by_cases hsr : shouldForceRefresh st res today = true <;>
          simp [hsr, download_section_noUrl]
      · cases url with
        | none =>
          by_cases hsr : shouldForceRefresh st res today = true <;>
            simp [hsr, download_section_noUrl]
        | some base =>
          by_cases hsr : shouldForceRefresh st res today = true <;>
            simp [hsr, download_section_err _ _ _ _ _ _ _ hf]

/-- Witness for C1: a thrown download error on an empty cache is converted to
the default record, and the all-fail no-cache case yields the default url. -/
theorem c1_witness :
    getWallpaperInternal ⟨[], [], [], []⟩ "1080p" 5 none (some "https://sb")
        FetchResult.err ⟨true, true⟩ =
      ({ url := Url.fallbackImage, isFromCache := false, isToday := true,
         needsUpdate := true, originalUrl := none }, ⟨[], [], [], []⟩,
       [SvcAction.download "1080p"]) ∧
    (getWallpaperInternal ⟨[], [], [], []⟩ "1080p" 5 none none
        FetchResult.err ⟨true, true⟩).1.url = Url.fallbackImage := by
  constructor
  · exact c1_getWallpaper_total.1 ⟨[], [], [], []⟩ "1080p" 5 none
      (some "https://sb") FetchResult.err ⟨true, true⟩ ⟨[], [], [], []⟩
      [SvcAction.download "1080p"] (by rfl)
  · exact c1_getWallpaper_total.2 ⟨[], [], [], []⟩ "1080p" 5 none none
      FetchResult.err ⟨true, true⟩ (by decide) (Or.inl rfl) (by rfl)

/-- C7 (amended): with no cache tier available, a download attempt that fails
yields the static local default flagged `needsUpdate = true`, but when no
candidate URL exists at all (no Supabase URL configured) the static default
is returned with `needsUpdate = false`. -/
theorem c7_amended_default_flags (st : ServiceState) (res : String)
    (today : Nat) (custom : Option String) (fetch : FetchResult)
    (w : WriteOutcome) (hres : res ≠ "custom")
    (hnc : getSmartCache st.store res today = none) :
    ((getWallpaperInternal st res today custom none fetch w).1 =
      { url := Url.fallbackImage, isFromCache := false, isToday := true,
        needsUpdate := false, originalUrl := none }) ∧
    (∀ base, fetchFails fetch = true →
      (getWallpaperInternal st res today custom (some base) fetch w).1 =
        { url := Url.fallbackImage, isFromCache := false, isToday := true,
          needsUpdate := true, originalUrl := none }) := by
  constructor
  · unfold getWallpaperInternal getWallpaperBody
    rw [if_neg hres]
    simp only [hnc]
    by_cases hsr : shouldForceRefresh st res today = true <;>
      simp [hsr, download_section_noUrl]
  · intro base hf
    unfold getWallpaperInternal getWallpaperBody
    rw [if_neg hres]
    simp only [hnc]
    by_cases hsr : shouldForceRefresh st res today = true <;>
      simp [hsr, download_section_err _ _ _ _ _ _ _ hf]

/-- Witness for C7 (amended) at concrete empty states. -/
theorem c7_witness :
    (getWallpaperInternal ⟨[], [], [], []⟩ "720p" 5 none none
        FetchResult.err ⟨true, true⟩).1 =
      { url := Url.fallbackImage, isFromCache := false, isToday := true,
        needsUpdate := false, originalUrl := none } ∧
    (getWallpaperInternal ⟨[], [], [], []⟩ "720p" 5 none (some "https://sb")
        FetchResult.err ⟨true, true⟩).1 =
      { url := Url.fallbackImage, isFromCache := false, isToday := true,
        needsUpdate := true, originalUrl := none } := by
  have h := c7_amended_default_flags ⟨[], [], [], []⟩ "720p" 5 none
    FetchResult.err ⟨true, true⟩ (by decide) (by rfl)
  exact ⟨h.1, h.2 "https://sb" (by rfl)⟩

/-- Every step of the deduplicator preserves its invariant. -/
theorem dedupInv_step (s : DedupState) (e : DedupEv) (h : DedupInv s) :
    DedupInv (dedupStep s e) := by
  obtain ⟨hkeys, hids, hload, hsettled⟩ := h
  cases e with
  | call res =>
    simp only [dedupStep, dedupCall]
    cases hl : lookupStr s.loading res with
    | some id => exact ⟨hkeys, hids, hload, hsettled⟩
    | none =>
      refine ⟨?_, ?_, ?_, ?_⟩
      · simp only [List.map_cons, List.nodup_cons]
        exact ⟨not_mem_of_lookupStr_eq_none _ _ hl, hkeys⟩
      · simp only [List.map_cons, List.nodup_cons]
        refine ⟨?_, hids⟩
        intro hmem
        obtain ⟨p, hp, hpe⟩ := List.mem_map.1 hmem
        exact absurd (hpe ▸ (hload p hp).2) (lt_irrefl _)
      · intro p hp
        rcases List.mem_cons.1 hp with h1 | h1
        · subst h1
          exact ⟨fun hmem => absurd (hsettled _ hmem) (lt_irrefl _),
            Nat.lt_succ_self _⟩
        · exact ⟨(hload p h1).1, Nat.lt_succ_of_lt (hload p h1).2⟩
      · intro i hi
        exact Nat.lt_succ_of_lt (hsettled i hi)
  | settle res =>
    simp only [dedupStep, dedupSettle]
    cases hl : lookupStr s.loading res with
    | none => exact ⟨hkeys, hids, hload, hsettled⟩
    | some id =>
      have hmem : (res, id) ∈ s.loading := lookupStr_mem _ _ _ hl
      refine ⟨?_, ?_, ?_, ?_⟩
      · exact hkeys.sublist ((removeStr_sublist s.loading res).map Prod.fst)
      · exact hids.sublist ((removeStr_sublist s.loading res).map Prod.snd)
      · intro p hp
        have hpl := mem_removeStr _ _ _ hp
        refine ⟨?_, (hload p hpl.1).2⟩
        intro hset
        rcases List.mem_cons.1 hset with h1 | h1
        · have hpe : p = (res, id) :=
            List.inj_on_of_nodup_map hids hpl.1 hmem h1
          exact hpl.2 (by rw [hpe])
        · exact (hload p hpl.1).1 h1
      · intro i hi
        rcases List.mem_cons.1 hi with h1 | h1
        · exact h1 ▸ (hload _ hmem).2
        · exact hsettled i h1

/-- Every reachable state of the deduplicator satisfies the invariant. -/
theorem dedupInv_run (evs : List DedupEv) : DedupInv (dedupRun evs) := by
  have hinit : DedupInv ⟨[], 0, []⟩ := by
    refine ⟨List.nodup_nil, List.nodup_nil, ?_, ?_⟩ <;> intro p hp <;> simp at hp
  unfold dedupRun
  generalize hs : (⟨[], 0, []⟩ : DedupState) = s0 at hinit
  clear hs
  induction evs generalizing s0 with
  | nil => exact hinit
  | cons e evs ih => exact ih _ (dedupInv_step s0 e hinit)

/-- In a list whose keys are pairwise distinct, at most one entry carries any
given key. -/
theorem length_filter_key_le_one (l : List (String × Nat)) (k : String)
    (h : (l.map Prod.fst).Nodup) :
    (l.filter (fun p => p.1 == k)).length ≤ 1 := by
  induction l with
  | nil => simp
  | cons p rest ih =>
    simp only [List.map_cons, List.nodup_cons] at h
    by_cases hk : p.1 == k
    · have hpk : p.1 = k := by simpa using hk
      have hrest : (rest.filter (fun q => q.1 == k)).length = 0 := by
        rw [List.length_eq_zero]
        rw [List.filter_eq_nil_iff]
        intro q hq
        have : q.1 ≠ k := fun he => h.1 (by rw [← hpk] at he; exact he ▸ List.mem_map_of_mem Prod.fst hq)
        simpa using this
      simp [List.filter_cons, hk, hrest]
    · simp only [List.filter_cons, hk]
      exact ih h.2

/-- C8: the deduplication map returns the same pending promise to every
caller that arrives while an entry is in flight; the entry is removed the
moment the operation settles (success or failure), no reachable state retains
a settled entry, and a call finding no entry starts a fresh (never settled)
attempt. -/
theorem c8_dedup_map :
    (∀ (s : DedupState) (res : String) (id : Nat),
        lookupStr s.loading res = some id → dedupCall s res = (id, s)) ∧
    (∀ (s : DedupState) (res : String),
        lookupStr (dedupSettle s res).loading res = none) ∧
    (∀ (evs : List DedupEv) (p : String × Nat),
        p ∈ (dedupRun evs).loading → p.2 ∉ (dedupRun evs).settled) ∧
    (∀ (evs : List DedupEv) (res : String),
        lookupStr (dedupRun evs).loading res = none →
        (dedupCall (dedupRun evs) res).1 = (dedupRun evs).nextId ∧
        (dedupRun evs).nextId ∉ (dedupRun evs).settled) := by
  refine ⟨?_, ?_, ?_, ?_⟩
  · intro s res id h
    simp [dedupCall, h]
  · intro s res
    unfold dedupSettle
    cases hl : lookupStr s.loading res with
    | none => exact hl
    | some id => simp [lookupStr_removeStr]
  · intro evs p hp
    exact ((dedupInv_run evs).2.2.1 p hp).1
  · intro evs res h
    constructor
    · simp [dedupCall, h]
    · intro hmem
      exact absurd ((dedupInv_run evs).2.2.2 _ hmem) (lt_irrefl _)

/-- Witness for C8: a second call while `1080p` is in flight observes the
same promise (identity 0) and leaves the map unchanged; settling removes the
entry; and after a call-settle history a fresh call mints a new, never
settled, promise. -/
theorem c8_witness :
    dedupCall ⟨[("1080p", 0)], 1, []⟩ "1080p" = (0, ⟨[("1080p", 0)], 1, []⟩) ∧
    lookupStr (dedupSettle ⟨[("1080p", 0)], 1, []⟩ "1080p").loading "1080p" = none ∧
    ((dedupCall (dedupRun [DedupEv.call "1080p", DedupEv.settle "1080p"]) "1080p").1 =
        (dedupRun [DedupEv.call "1080p", DedupEv.settle "1080p"]).nextId ∧
      (dedupRun [DedupEv.call "1080p", DedupEv.settle "1080p"]).nextId ∉
        (dedupRun [DedupEv.call "1080p", DedupEv.settle "1080p"]).settled) := by
  refine ⟨?_, ?_, ?_⟩
  · exact c8_dedup_map.1 _ "1080p" 0 (by rfl)
  · exact c8_dedup_map.2.1 _ "1080p"
  · exact c8_dedup_map.2.2.2 _ "1080p" (by rfl)

/-- C3 (amended): the deduplicator does bound `getWallpaper` itself — in
every reachable state of the `loadingPromises` map, at most one in-flight
`_getWallpaperInternal` run exists per category; the claim fails only for the
downloads launched by `updateWallpaperInBackground` (background refresh,
visibility triggers, retry timers), which bypass the map and may overlap. -/
theorem c3_amended_single_inflight (evs : List DedupEv) (res : String) :
    ((dedupRun evs).loading.filter (fun p => p.1 == res)).length ≤ 1 :=
  length_filter_key_le_one _ _ (dedupInv_run evs).1

/-- `downloadAndCache` either throws, or returns a fallback result leaving
the store untouched, or returns a genuine result — and the genuine case
occurs exactly for a `genuinePayload` response. -/
theorem downloadAndCache_spec (store : Store) (req : String) (res : String)
    (t : Nat) (fetch : FetchResult) (w : WriteOutcome) :
    downloadAndCache store req res t fetch w = Except.error () ∨
    (∃ r, downloadAndCache store req res t fetch w = Except.ok (r, store) ∧
      r.isFallback = true) ∨
    (∃ r store', downloadAndCache store req res t fetch w =
        Except.ok (r, store') ∧ r.isFallback = false ∧
      genuinePayload res fetch = true) := by
  cases fetch with
  | err => exact Or.inl rfl
  | ok ct b src =>
    simp only [downloadAndCache]
    by_cases hj : hasSubstring ct "application/json" = true
    · rw [if_pos hj]
      exact Or.inl rfl
    · rw [if_neg hj]
      by_cases hz : b.size = 0
      · rw [if_pos hz]
        exact Or.inl rfl
      · rw [if_neg hz]
        by_cases hsm : res = "4k" ∧ b.size < 500 * 1024
        · rw [if_pos hsm]
          exact Or.inr (Or.inl ⟨_, rfl, rfl⟩)
        · rw [if_neg hsm]
          refine Or.inr (Or.inr ⟨_, _, rfl, rfl, ?_⟩)
          simp [genuinePayload, hj, hz, hsm]

/-- `scheduleRetry` touches only the retry maps. -/
theorem scheduleRetry_preserves (st : ServiceState) (res : String) :
    (scheduleRetry st res).1.store = st.store ∧
    (scheduleRetry st res).1.successMarkers = st.successMarkers := by
  unfold scheduleRetry
  cases hl : lookupStr st.retryTimers res with
  | some v => exact ⟨rfl, rfl⟩
  | none =>
    dsimp only
    split
    · exact ⟨rfl, rfl⟩
    · exact ⟨rfl, rfl⟩

/-- The timer-firing bookkeeping touches only the retry maps. -/
theorem retryFireCounts_preserves (st : ServiceState) (res : String) :
    (retryFireCounts st res).store = st.store ∧
    (retryFireCounts st res).successMarkers = st.successMarkers := by
  unfold retryFireCounts
  cases hl : lookupStr st.retryTimers res with
  | some v => exact ⟨rfl, rfl⟩
  | none => exact ⟨rfl, rfl⟩

/-- The state `_getWallpaperInternal` leaves behind is the state of its body,
whether it returned or threw. -/
theorem internal_state_eq (st : ServiceState) (res : String) (t : Nat)
    (custom url : Option String) (fetch : FetchResult) (w : WriteOutcome) :
    (getWallpaperInternal st res t custom url fetch w).2.1 =
      exceptState (getWallpaperBody st res t custom url fetch w) := by
  unfold getWallpaperInternal exceptState
  cases getWallpaperBody st res t custom url fetch w with
  | ok out =>
    obtain ⟨a, b2, c2⟩ := out
    rfl
  | error e =>
    obtain ⟨e1, e2⟩ := e
    rfl

/-- The download branch changes the success markers only by recording
today's date, and only upon a genuine (non-fallback) payload. -/
theorem downloadBranch_markers (st : ServiceState) (res : String) (t : Nat)
    (U : String) (fetch : FetchResult) (w : WriteOutcome) (sr : Bool)
    (fc : Option SmartCacheResult) :
    (exceptState (downloadBranch st res t U fetch w sr fc)).successMarkers =
      st.successMarkers ∨
    ((exceptState (downloadBranch st res t U fetch w sr fc)).successMarkers =
        setStr st.successMarkers res t ∧
      genuinePayload res fetch = true) := by
  unfold downloadBranch
  rcases downloadAndCache_spec st.store U res t fetch w with hdl |
    ⟨r, hdl, hrf⟩ | ⟨r, store', hdl, hrf, hgen⟩
  · rw [hdl]
    cases fc with
    | some c => exact Or.inl (scheduleRetry_preserves st res).2
    | none => exact Or.inl rfl
  · rw [hdl]
    dsimp only
    rw [hrf]
    exact Or.inl (scheduleRetry_preserves _ res).2
  · rw [hdl]
    dsimp only
    rw [hrf]
    exact Or.inr ⟨by cases sr <;> rfl, hgen⟩

/-- The whole download section changes the success markers only by recording
today's date, and only when a candidate URL exists and the payload is
genuine. -/
theorem getWallpaperDownload_markers (st : ServiceState) (res : String)
    (t : Nat) (url : Option String) (fetch : FetchResult) (w : WriteOutcome)
    (sr : Bool) (fc : Option SmartCacheResult) :
    (exceptState (getWallpaperDownload st res t url fetch w sr fc)).successMarkers =
      st.successMarkers ∨
    ((exceptState (getWallpaperDownload st res t url fetch w sr fc)).successMarkers =
        setStr st.successMarkers res t ∧
      url.isSome = true ∧ genuinePayload res fetch = true) := by
  unfold getWallpaperDownload
  cases url with
  | none =>
    cases fc with
    | some c => exact Or.inl rfl
    | none => exact Or.inl rfl
  | some base =>
    dsimp only [getWallpaperUrl]
    rcases downloadBranch_markers st res t
        (base ++ "/functions/v1/wallpaper-service?resolution=" ++
          resolutionMapped res ++ "&date=" ++ toString t) fetch w sr fc with
      h | ⟨h, hgen⟩
    · exact Or.inl h
    · exact Or.inr ⟨h, rfl, hgen⟩

/-- The background download step changes the success markers only by
recording today's date upon a genuine payload. -/
theorem backgroundDownloadStep_markers (st : ServiceState) (res : String)
    (t : Nat) (U : String) (fetch : FetchResult) (w : WriteOutcome) :
    ((backgroundDownloadStep st res t U fetch w).1).successMarkers =
      st.successMarkers ∨
    (((backgroundDownloadStep st res t U fetch w).1).successMarkers =
        setStr st.successMarkers res t ∧
      genuinePayload res fetch = true) := by
  unfold backgroundDownloadStep
  rcases downloadAndCache_spec st.store U res t fetch w with hdl |
    ⟨r, hdl, hrf⟩ | ⟨r, store', hdl, hrf, hgen⟩
  · rw [hdl]
    exact Or.inl (scheduleRetry_preserves st res).2
  · rw [hdl]
    dsimp only
    rw [hrf]
    exact Or.inl (scheduleRetry_preserves _ res).2
  · rw [hdl]
    dsimp only
    rw [hrf]
    exact Or.inr ⟨rfl, hgen⟩

/-- `updateWallpaperInBackground` changes the success markers only by
recording today's date, and only when a candidate URL exists and the payload
is genuine. -/
theorem updateWallpaperInBackground_markers (st : ServiceState)
    (res : String) (t : Nat) (url : Option String) (fetch : FetchResult)
    (w : WriteOutcome) :
    ((updateWallpaperInBackground st res t url fetch w).1).successMarkers =
      st.successMarkers ∨
    (((updateWallpaperInBackground st res t url fetch w).1).successMarkers =
        setStr st.successMarkers res t ∧
      url.isSome = true ∧ genuinePayload res fetch = true) := by
  unfold updateWallpaperInBackground
  cases url with
  | none => exact Or.inl rfl
  | some base =>
    dsimp only [getWallpaperUrl]
    rcases backgroundDownloadStep_markers st res t
        (base ++ "/functions/v1/wallpaper-service?resolution=" ++
          resolutionMapped res ++ "&date=" ++ toString t) fetch w with
      h | ⟨h, hgen⟩
    · exact Or.inl h
    · exact Or.inr ⟨h, rfl, hgen⟩

/-- A retry timer firing changes the success markers only by recording
today's date, and only when a candidate URL exists and the payload is
genuine. -/
theorem retryTimerFire_markers (st : ServiceState) (res : String) (t : Nat)
    (url : Option String) (fetch : FetchResult) (w : WriteOutcome) :
    ((retryTimerFire st res t url fetch w).1).successMarkers =
      st.successMarkers ∨
    (((retryTimerFire st res t url fetch w).1).successMarkers =
        setStr st.successMarkers res t ∧
      url.isSome = true ∧ genuinePayload res fetch = true) := by
  unfold retryTimerFire
  cases hl : lookupStr st.retryTimers res with
  | none => exact Or.inl rfl
  | some captured =>
    rcases updateWallpaperInBackground_markers (retryFireCounts st res) res t
        url fetch w with h | ⟨h, hu, hg⟩
    · exact Or.inl (h.trans (retryFireCounts_preserves st res).2)
    · refine Or.inr ⟨h.trans ?_, hu, hg⟩
      rw [(retryFireCounts_preserves st res).2]

/-- A full `getWallpaper` call changes the success markers only by recording
today's date, and only when a candidate URL exists and the payload is
genuine. -/
theorem getWallpaperInternal_markers (st : ServiceState) (res : String)
    (t : Nat) (custom url : Option String) (fetch : FetchResult)
    (w : WriteOutcome) :
    ((getWallpaperInternal st res t custom url fetch w).2.1).successMarkers =
      st.successMarkers ∨
    (((getWallpaperInternal st res t custom url fetch w).2.1).successMarkers =
        setStr st.successMarkers res t ∧
      url.isSome = true ∧ genuinePayload res fetch = true) := by
  rw [internal_state_eq]
  unfold getWallpaperBody
  by_cases hres : res = "custom"
  · rw [if_pos hres]
    cases custom with
    | some u => exact Or.inl rfl
    | none => exact Or.inl rfl
  · rw [if_neg hres]
    dsimp only
    by_cases hsr : shouldForceRefresh st res t = true
    · rw [if_pos hsr]
      cases hc : getSmartCache st.store res t with
      | some c => exact Or.inl rfl
      | none => exact getWallpaperDownload_markers st res t url fetch w true none
    · rw [if_neg hsr]
      cases hc : getSmartCache st.store res t with
      | none => exact getWallpaperDownload_markers st res t url fetch w false none
      | some c =>
        dsimp only
        by_cases hcond : c.originalUrl.isNone = true ∧ c.isToday = true
        · rw [if_pos hcond]
          exact getWallpaperDownload_markers
            { st with store := storeDelete st.store (getTodayCacheKey res t) }
            res t url fetch w false (some c)
        · rw [if_neg hcond]
          by_cases h4 : c.originalUrl.isSome = true
          · rw [if_pos h4]
            exact Or.inl rfl
          · rw [if_neg h4]
            exact Or.inl rfl

/-- One step of the service can only leave a marker that was already there,
or install today's date upon a genuine non-fallback download in that very
step. -/
theorem sysStep_markers (s : SysState) (e : SysEv) (r : String) (D : Nat)
    (h : lookupStr (sysStep s e).svc.successMarkers r = some D) :
    lookupStr s.svc.successMarkers r = some D ∨
    (eventGenuineDownload e r ∧ D = s.today) := by
  cases e with
  | getWallpaper res custom url fetch w =>
    have h2 : lookupStr
        ((getWallpaperInternal s.svc res s.today custom url fetch w).2.1).successMarkers
        r = some D := h
    rcases getWallpaperInternal_markers s.svc res s.today custom url fetch w with
      hm | ⟨hm, hu, hg⟩
    · rw [hm] at h2
      exact Or.inl h2
    · rw [hm, lookupStr_setStr] at h2
      by_cases hr : r = res
      · rw [if_pos hr] at h2
        injection h2 with h2
        exact Or.inr ⟨⟨hr.symm, hu, hg⟩, h2.symm⟩
      · rw [if_neg hr] at h2
        exact Or.inl h2
  | background res url fetch w =>
    have h2 : lookupStr
        ((updateWallpaperInBackground s.svc res s.today url fetch w).1).successMarkers
        r = some D := h
    rcases updateWallpaperInBackground_markers s.svc res s.today url fetch w with
      hm | ⟨hm, hu, hg⟩
    · rw [hm] at h2
      exact Or.inl h2
    · rw [hm, lookupStr_setStr] at h2
      by_cases hr : r = res
      · rw [if_pos hr] at h2
        injection h2 with h2
        exact Or.inr ⟨⟨hr.symm, hu, hg⟩, h2.symm⟩
      · rw [if_neg hr] at h2
        exact Or.inl h2
  | retryFire res url fetch w =>
    have h2 : lookupStr
        ((retryTimerFire s.svc res s.today url fetch w).1).successMarkers
        r = some D := h
    rcases retryTimerFire_markers s.svc res s.today url fetch w with
      hm | ⟨hm, hu, hg⟩
    · rw [hm] at h2
      exact Or.inl h2
    · rw [hm, lookupStr_setStr] at h2
      by_cases hr : r = res
      · rw [if_pos hr] at h2
        injection h2 with h2
        exact Or.inr ⟨⟨hr.symm, hu, hg⟩, h2.symm⟩
      · rw [if_neg hr] at h2
        exact Or.inl h2
  | cleanup => exact Or.inl h
  | nextDay => exact Or.inl h
  | expire k =>
    left
    simp only [sysStep] at h
    cases hg : storeGet s.svc.store k with
    | none =>
      rw [hg] at h
      exact h
    | some entry =>
      rw [hg] at h
      dsimp only at h
      by_cases hc : entry.expiresAt ≤ s.today
      · rw [if_pos hc] at h
        exact h
      · rw [if_neg hc] at h
        exact h

/-- C4 (counterexample): two reachable states in which the success marker
holds a date with no cache entry behind it.  First, the cache writes of a
successful download fail (they are fire-and-forget and non-fatal) while
`markUpdateSuccess` runs regardless: the marker holds day 100 and no entry
for `(1080p, 100)` was ever stored.  Second, with the writes succeeding, four
days pass without another success and a cleanup pass deletes the entry while
the marker still holds day 100. -/
theorem c4_counterexample :
    (lookupStr (sysRun [SysEv.getWallpaper "1080p" none (some "https://sb")
        (FetchResult.ok "image/jpeg" ⟨600000⟩ (some "https://bing.com/img.jpg"))
        ⟨false, false⟩]).svc.successMarkers "1080p" = some 100 ∧
      storeGet (sysRun [SysEv.getWallpaper "1080p" none (some "https://sb")
        (FetchResult.ok "image/jpeg" ⟨600000⟩ (some "https://bing.com/img.jpg"))
        ⟨false, false⟩]).svc.store (Key.wallpaper "1080p" 100 false) = none) ∧
    (lookupStr (sysRun [SysEv.getWallpaper "1080p" none (some "https://sb")
        (FetchResult.ok "image/jpeg" ⟨600000⟩ (some "https://bing.com/img.jpg"))
        ⟨true, true⟩,
      SysEv.nextDay, SysEv.nextDay, SysEv.nextDay, SysEv.nextDay,
      SysEv.cleanup]).svc.successMarkers "1080p" = some 100 ∧
      storeGet (sysRun [SysEv.getWallpaper "1080p" none (some "https://sb")
        (FetchResult.ok "image/jpeg" ⟨600000⟩ (some "https://bing.com/img.jpg"))
        ⟨true, true⟩,
      SysEv.nextDay, SysEv.nextDay, SysEv.nextDay, SysEv.nextDay,
      SysEv.cleanup]).svc.store (Key.wallpaper "1080p" 100 false) = none) := by
  exact ⟨⟨by decide, by decide⟩, ⟨by decide, by decide⟩⟩

/-- C4 (amended): a success marker holding date `D` records exactly that a
genuine (non-fallback) download for that category completed while the
current local date was `D`: in every reachable state, a marker can only have
been installed by some earlier step whose event carried a configured
candidate URL and a valid, correctly sized payload, with the day counter at
`D` when it ran.  The persisted cache entry itself need not still — or ever —
exist: the fire-and-forget cache write may fail, the 48-hour TTL may expire
the entry, and the cleanup pass removes it once it is more than 3 days old,
all without touching the marker. -/
theorem c4_amended_marker_provenance (evs : List SysEv) (r : String)
    (D : Nat)
    (h : lookupStr (sysRun evs).svc.successMarkers r = some D) :
    ∃ pre e post, evs = pre ++ e :: post ∧ eventGenuineDownload e r ∧
      (sysRun pre).today = D := by
  induction evs using List.reverseRecOn with
  | nil => simp [sysRun, sysInit, lookupStr] at h
  | append_singleton l e ih =>
    have hstep : sysRun (l ++ [e]) = sysStep (sysRun l) e := by
      simp [sysRun, List.foldl_append]
    rw [hstep] at h
    rcases sysStep_markers (sysRun l) e r D h with h1 | ⟨hg, hD⟩
    · obtain ⟨pre, e0, post, heq, hgen, htoday⟩ := ih h1
      exact ⟨pre, e0, post ++ [e], by rw [heq]; simp, hgen, htoday⟩
    · exact ⟨l, e, [], rfl, hg, hD.symm⟩

/-- Witness for C4 (amended): after one successful download on day 100 the
marker holds 100, and the theorem locates the genuine download step that
installed it. -/
theorem c4_witness :
    ∃ pre e post,
      [SysEv.getWallpaper "1080p" none (some "https://sb")
        (FetchResult.ok "image/jpeg" ⟨600000⟩ (some "https://bing.com/img.jpg"))
        ⟨true, true⟩] = pre ++ e :: post ∧
      eventGenuineDownload e "1080p" ∧ (sysRun pre).today = 100 :=
  c4_amended_marker_provenance
    [SysEv.getWallpaper "1080p" none (some "https://sb")
      (FetchResult.ok "image/jpeg" ⟨600000⟩ (some "https://bing.com/img.jpg"))
      ⟨true, true⟩] "1080p" 100 (by decide)
